import Mathlib

/-!
Shallow embedding of `mod_cspnonce.c` (module `cspnonce`): the CSP-nonce
generator `GenSecureCSPNonce`, the request hook `set_cspnonce`, and the
pieces of their environment they depend on (the APR base64 encoder, the
APR table holding `subprocess_env`, and the POSIX fallback entropy path).
Machine integers are modelled as `Nat` with explicit `% 256` masking where
the C code masks; fallible C functions returning `NULL` are modelled with
`Option`.
-/

namespace ModCspnonce

/-- The base64 alphabet `basis_64` of APR's `apr_base64.c`, the external
library implementing `apr_base64_encode` called at `mod_cspnonce.c:117`. -/
def basis_64 : List Char :=
  ['A', 'B', 'C', 'D', 'E', 'F', 'G', 'H', 'I', 'J', 'K', 'L', 'M',
   'N', 'O', 'P', 'Q', 'R', 'S', 'T', 'U', 'V', 'W', 'X', 'Y', 'Z',
   'a', 'b', 'c', 'd', 'e', 'f', 'g', 'h', 'i', 'j', 'k', 'l', 'm',
   'n', 'o', 'p', 'q', 'r', 's', 't', 'u', 'v', 'w', 'x', 'y', 'z',
   '0', '1', '2', '3', '4', '5', '6', '7', '8', '9', '+', '/']

/-- Array indexing `basis_64[s]`; every index the encoder produces is
masked below 64, so the default is never reached. -/
def b64chr (s : Nat) : Char := basis_64.getD s 'A'

/-- APR's `apr_base64_encode_binary`, processing 3 input bytes into 4
alphabet characters per round, with `=`-padding for a 1- or 2-byte tail.
The C shift/mask expressions are written as division/remainder:
`(b >> 2) & 0x3F` is `b / 4 % 64`, `(b & 0x3) << 4` is `b % 4 * 16`,
`(b & 0xF0) >> 4` is `b / 16 % 16`, `(b & 0xF) << 2` is `b % 16 * 4`,
`(b & 0xC0) >> 6` is `b / 64 % 4`, and `b & 0x3F` is `b % 64` (these agree
on all of `Nat`, not only on bytes). -/
def apr_base64_encode : List Nat → List Char
  | a :: b :: c :: rest =>
      b64chr (a / 4 % 64) :: b64chr (a % 4 * 16 + b / 16 % 16) ::
        b64chr (b % 16 * 4 + c / 64 % 4) :: b64chr (c % 64) ::
          apr_base64_encode rest
  | [a] => [b64chr (a / 4 % 64), b64chr (a % 4 * 16), '=', '=']
  | [a, b] => [b64chr (a / 4 % 64), b64chr (a % 4 * 16 + b / 16 % 16),
               b64chr (b % 16 * 4), '=']
  | [] => []

/-- Position of a character in the base64 alphabet (APR's `pr2six` table);
64 for characters outside the alphabet. -/
def b64val (ch : Char) : Nat := basis_64.indexOf ch

/-- APR's `apr_base64_decode_binary`: the inverse transform, 4 alphabet
characters back into 3 bytes per round, stopping at `=`-padding. -/
def apr_base64_decode : List Char → List Nat
  | w :: x :: y :: z :: rest =>
      if y = '=' then
        [b64val w * 4 + b64val x / 16]
      else if z = '=' then
        [b64val w * 4 + b64val x / 16, b64val x % 16 * 16 + b64val y / 4]
      else
        (b64val w * 4 + b64val x / 16) :: (b64val x % 16 * 16 + b64val y / 4) ::
          (b64val y % 4 * 64 + b64val z) :: apr_base64_decode rest
  | _ => []

/-- An APR table (`r->subprocess_env`): a sequence of key/value entries,
looked up by first match. Values here are the nonce character strings. -/
abbrev Env := List (String × List Char)

/-- `apr_table_get(t, key)`: the value of the first entry for `key`,
or NULL (`none`) when `key` is absent. -/
def apr_table_get (t : Env) (key : String) : Option (List Char) :=
  (t.find? (fun p => p.1 == key)).map (fun p => p.2)

/-- `apr_table_setn(t, key, val)`: replace any existing entries for `key`
with the single binding `key ↦ val`. -/
def apr_table_setn (t : Env) (key : String) (val : List Char) : Env :=
  (key, val) :: t.filter (fun p => p.1 != key)

/-- The slice of Apache's `request_rec` that `set_cspnonce` reads:
whether `r->prev` is non-NULL (this request is an internal redirect of a
previous one) and the `r->subprocess_env` table. -/
structure RequestRec where
  prev : Bool
  subprocess_env : Env

/-- Apache's `DECLINED` return code (`httpd.h`): the hook did not fully
handle the request, the pipeline continues. -/
def DECLINED : Int := -1

/-- `GenSecureCSPNonce` (`mod_cspnonce.c:51`): acquire 9 random bytes from
the platform and base64-encode them into a 12-character nonce; on entropy
failure return NULL. The platform entropy acquisition (BCrypt on Windows,
clock-seeded `random()` on POSIX) is abstracted as the `entropy` argument:
`none` is the failure exit at lines 65/71/87, `some random_bytes` the
9-byte buffer handed to `apr_base64_encode` at line 117. -/
def GenSecureCSPNonce (entropy : Option (List Nat)) : Option (List Char) :=
  match entropy with
  | none => none
  | some random_bytes => some (apr_base64_encode random_bytes)

/-- Result of one `set_cspnonce` invocation: the final `subprocess_env`,
the hook's return value, and instrumentation counting how many times
`GenSecureCSPNonce` and `apr_table_setn` were invoked. -/
structure SetResult where
  env : Env
  ret : Int
  genCalls : Nat
  writes : Nat

/-- `set_cspnonce` (`mod_cspnonce.c:122`): `id = NULL`; if `r->prev`,
`id = apr_table_get(r->subprocess_env, "REDIRECT_CSP_NONCE")`; if `id`
is still NULL, `id = GenSecureCSPNonce(r)`; if `id` is non-NULL,
`apr_table_setn(r->subprocess_env, "CSP_NONCE", id)`; return `DECLINED`. -/
def set_cspnonce (entropy : Option (List Nat)) (r : RequestRec) : SetResult :=
  let id : Option (List Char) :=
    if r.prev then apr_table_get r.subprocess_env "REDIRECT_CSP_NONCE"
    else none
  match id with
  | some v => ⟨apr_table_setn r.subprocess_env "CSP_NONCE" v, DECLINED, 0, 1⟩
  | none =>
      match GenSecureCSPNonce entropy with
      | some v =>
          ⟨apr_table_setn r.subprocess_env "CSP_NONCE" v, DECLINED, 1, 1⟩
      | none => ⟨r.subprocess_env, DECLINED, 1, 0⟩

/-- Modelled from the spec: the host pipeline's internal-redirect step is
not part of this repository; per the spec's data model the chain
propagates the previous hop's key-value environment to the child with
each variable renamed under a `REDIRECT_` prefix (Apache's
`rename_original_env`, which prefixes every key), which is how the
parent's `CSP_NONCE` becomes the child's `REDIRECT_CSP_NONCE`. -/
def rename_original_env (env : Env) : Env :=
  env.map (fun p => ("REDIRECT_" ++ p.1, p.2))

/-- Run `set_cspnonce` on each successive internal redirect of a chain:
every child request has `r->prev` non-NULL and sees the previous hop's
environment propagated through `rename_original_env`. Each list element
of `es` is the platform entropy outcome offered to that hop. -/
def runChainAux (env : Env) : List (Option (List Nat)) → List SetResult
  | [] => []
  | e :: rest =>
      let res := set_cspnonce e ⟨true, rename_original_env env⟩
      res :: runChainAux res.env rest

/-- Run a whole request chain: the root request has `r->prev = NULL` and
environment `rootEnv`; each further entry of `es` is one internal
redirect hop. Returns the per-hop results, in order. -/
def runChain (rootEnv : Env) : List (Option (List Nat)) → List SetResult
  | [] => []
  | e :: rest =>
      let res := set_cspnonce e ⟨false, rootEnv⟩
      res :: runChainAux res.env rest

/-- The nonce format the spec fixes: exactly 12 characters, all from the
base64 alphabet, no `=`-padding. -/
def NonceFormat (v : List Char) : Prop :=
  v.length = 12 ∧ ∀ c ∈ v, c ∈ basis_64 ∧ c ≠ '='

/-- Every entry a chain environment holds under the module's two keys is a
well-formed nonce. -/
def GoodEnv (env : Env) : Prop :=
  ∀ p ∈ env, p.1 = "CSP_NONCE" ∨ p.1 = "REDIRECT_CSP_NONCE" →
    NonceFormat p.2

/-- The `struct timespec` fields read by the POSIX fallback path
(`mod_cspnonce.c:85`), as unsigned machine integers. -/
structure Timespec where
  tv_sec : Nat
  tv_nsec : Nat

/-- `memcpy(random_bytes + off, &r, 4)` for a 4-byte little-endian `int`:
the individual bytes of `r`. -/
def intBytes4 (r : Nat) : List Nat :=
  [r % 256, r / 256 % 256, r / 65536 % 256, r / 16777216 % 256]

/-- `memcpy(buf + off, src, len)`: overwrite `buf` with `src` starting at
offset `off`. -/
def memcpyAt : List Nat → List Nat → Nat → List Nat
  | buf, [], _ => buf
  | buf, b :: rest, off => memcpyAt (buf.set off b) rest (off + 1)

/-- The POSIX fallback buffer filling (`mod_cspnonce.c:92`–`104`): three
4-byte draws copied into the 9-byte `random_bytes` at offsets 0, 4 and 5
(the last two overlap). -/
def fallback_fill (r1 r2 r3 : Nat) : List Nat :=
  memcpyAt
    (memcpyAt (memcpyAt (List.replicate 9 0) (intBytes4 r1) 0)
      (intBytes4 r2) 4)
    (intBytes4 r3) 5

/-- The three byte ranges written by the fallback path, as
(offset, length) pairs: bytes 0–3, 4–7 and 5–8. -/
def fallbackRanges : List (Nat × Nat) := [(0, 4), (4, 4), (5, 4)]

/-- How many of the three `memcpy` draws write buffer index `i`. -/
def coverCount (i : Nat) : Nat :=
  (fallbackRanges.filter (fun p => decide (p.1 ≤ i ∧ i < p.1 + p.2))).length

/-- `srandom(ts.tv_nsec ^ ts.tv_sec)` (`mod_cspnonce.c:90`): the PRNG
seed computed from the wall-clock reading. -/
def posixSeed (ts : Timespec) : Nat := ts.tv_nsec ^^^ ts.tv_sec

/-- The POSIX path of `GenSecureCSPNonce` after a successful
`timespec_get`: seed the PRNG from the clock, draw `random()` three times,
fill the overlapping buffer, base64-encode. The libc PRNG is modelled as
an abstract `stream`: `stream seed i` is the (i+1)-st `random()` value
after `srandom(seed)`. -/
def genPosixNonce (stream : Nat → Nat → Nat) (ts : Timespec) : List Char :=
  apr_base64_encode
    (fallback_fill (stream (posixSeed ts) 0) (stream (posixSeed ts) 1)
      (stream (posixSeed ts) 2))

/-! ## Base64 helper lemmas -/

/-- Looking up the alphabet position of an encoded character recovers the
sextet, for every sextet value the encoder can produce. -/
theorem b64val_b64chr : ∀ s < 64, b64val (b64chr s) = s := by decide

/-- Every character the alphabet table yields for a sextet is in the
alphabet and is not the padding character. -/
theorem b64chr_good : ∀ s < 64, b64chr s ∈ basis_64 ∧ b64chr s ≠ '=' := by
  decide

/-- On inputs whose length is a multiple of 3, the encoder emits exactly
4 characters per 3 input bytes. -/
theorem encode_length_triples : ∀ bs : List Nat, bs.length % 3 = 0 →
    (apr_base64_encode bs).length = bs.length / 3 * 4
  | [], _ => by simp [apr_base64_encode]
  | [a], h => by simp at h
  | [a, b], h => by simp at h
  | a :: b :: c :: rest, h => by
      have h3 : rest.length % 3 = 0 := by
        simp only [List.length_cons] at h; omega
      have ih := encode_length_triples rest h3
      simp only [apr_base64_encode, List.length_cons, ih]
      omega

/-- On inputs whose length is a multiple of 3, every character the encoder
emits is in the alphabet and is not the padding character. -/
theorem encode_mem_triples : ∀ bs : List Nat, bs.length % 3 = 0 →
    ∀ ch ∈ apr_base64_encode bs, ch ∈ basis_64 ∧ ch ≠ '='
  | [], _ => by simp [apr_base64_encode]
  | [a], h => by simp at h
  | [a, b], h => by simp at h
  | a :: b :: c :: rest, h => by
      have h3 : rest.length % 3 = 0 := by
        simp only [List.length_cons] at h; omega
      intro ch hch
      simp only [apr_base64_encode, List.mem_cons] at hch
      rcases hch with rfl | rfl | rfl | rfl | hch
      · exact b64chr_good _ (by omega)
      · exact b64chr_good _ (by omega)
      · exact b64chr_good _ (by omega)
      · exact b64chr_good _ (by omega)
      · exact encode_mem_triples rest h3 ch hch

/-- Decoding inverts encoding on byte lists whose length is a multiple
of 3. -/
theorem decode_encode_triples : ∀ bs : List Nat, bs.length % 3 = 0 →
    (∀ x ∈ bs, x < 256) → apr_base64_decode (apr_base64_encode bs) = bs
  | [], _, _ => rfl
  | [a], h, _ => by simp at h
  | [a, b], h, _ => by simp at h
  | a :: b :: c :: rest, h, hb => by
      have h3 : rest.length % 3 = 0 := by
        simp only [List.length_cons] at h; omega
      have hb3 : ∀ x ∈ rest, x < 256 := fun x hx => hb x (by simp [hx])
      have ha : a < 256 := hb a (by simp)
      have hbb : b < 256 := hb b (by simp)
      have hc : c < 256 := hb c (by simp)
      have hyne : b64chr (b % 16 * 4 + c / 64 % 4) ≠ '=' :=
        (b64chr_good _ (by omega)).2
      have hzne : b64chr (c % 64) ≠ '=' := (b64chr_good _ (by omega)).2
      have e1 := b64val_b64chr (a / 4 % 64) (by omega)
      have e2 := b64val_b64chr (a % 4 * 16 + b / 16 % 16) (by omega)
      have e3 := b64val_b64chr (b % 16 * 4 + c / 64 % 4) (by omega)
      have e4 := b64val_b64chr (c % 64) (by omega)
      have ih := decode_encode_triples rest h3 hb3
      simp only [apr_base64_encode, apr_base64_decode, if_neg hyne,
        if_neg hzne, e1, e2, e3, e4, ih, List.cons.injEq]
      refine ⟨by omega, by omega, by omega, trivial⟩

/-! ## Table helper lemmas -/

/-- Reading back the key just written by `apr_table_setn` yields the
written value. -/
theorem apr_table_get_setn_self (t : Env) (k : String) (v : List Char) :
    apr_table_get (apr_table_setn t k v) k = some v := by
  simp [apr_table_get, apr_table_setn]

/-! ## Claims about `set_cspnonce` -/

/-- C1 (chain stability): when `set_cspnonce` runs on a child context
(`r->prev` non-NULL) whose environment carries the parent's propagated
nonce under `REDIRECT_CSP_NONCE`, the child's resolved `CSP_NONCE` is the
identical string the parent context exposes under `CSP_NONCE`, so every
context in the chain with a resolved nonce exposes the same value. -/
theorem chain_stability (entropy : Option (List Nat)) (r : RequestRec)
    (parentEnv : Env) (n : List Char)
    (hprev : r.prev = true)
    (hparent : apr_table_get parentEnv "CSP_NONCE" = some n)
    (hred : apr_table_get r.subprocess_env "REDIRECT_CSP_NONCE" = some n) :
    apr_table_get (set_cspnonce entropy r).env "CSP_NONCE" =
      apr_table_get parentEnv "CSP_NONCE" := by
  rw [hparent]
  simp only [set_cspnonce, hprev, if_true, hred]
  exact apr_table_get_setn_self ..

/-- Witness for C1 at a concrete one-hop chain. -/
theorem chain_stability_witness :
    apr_table_get
      (set_cspnonce none
        ⟨true, [("REDIRECT_CSP_NONCE", ['x'])]⟩).env "CSP_NONCE" =
      apr_table_get [("CSP_NONCE", ['x'])] "CSP_NONCE" :=
  chain_stability none ⟨true, [("REDIRECT_CSP_NONCE", ['x'])]⟩
    [("CSP_NONCE", ['x'])] ['x'] rfl (by decide) (by decide)

/-- C2 (inheritance reuse): a context with a parent whose environment
holds `N` under `REDIRECT_CSP_NONCE` resolves to `N` verbatim and never
invokes `GenSecureCSPNonce`, so no entropy is consumed. -/
theorem inheritance_reuse (entropy : Option (List Nat)) (r : RequestRec)
    (n : List Char) (hprev : r.prev = true)
    (hred : apr_table_get r.subprocess_env "REDIRECT_CSP_NONCE" = some n) :
    (set_cspnonce entropy r).genCalls = 0 ∧
    apr_table_get (set_cspnonce entropy r).env "CSP_NONCE" = some n := by
  constructor
  · simp [set_cspnonce, hprev, hred]
  · simp only [set_cspnonce, hprev, if_true, hred]
    exact apr_table_get_setn_self ..

/-- Witness for C2 at a concrete child context. -/
theorem inheritance_reuse_witness :
    (set_cspnonce (some (List.replicate 9 0))
        ⟨true, [("REDIRECT_CSP_NONCE", ['N'])]⟩).genCalls = 0 ∧
    apr_table_get
      (set_cspnonce (some (List.replicate 9 0))
        ⟨true, [("REDIRECT_CSP_NONCE", ['N'])]⟩).env "CSP_NONCE" =
      some ['N'] :=
  inheritance_reuse (some (List.replicate 9 0))
    ⟨true, [("REDIRECT_CSP_NONCE", ['N'])]⟩ ['N'] rfl (by decide)

/-- C3 (error atomicity and non-escalation): when entropy acquisition
fails (`GenSecureCSPNonce` returns NULL) on the generating path, the
environment is returned unchanged, `CSP_NONCE` stays absent, and the hook
still returns `DECLINED` rather than an error that halts processing. -/
theorem entropy_failure_atomic (r : RequestRec)
    (habs : apr_table_get r.subprocess_env "CSP_NONCE" = none)
    (hpath : r.prev = false ∨
      apr_table_get r.subprocess_env "REDIRECT_CSP_NONCE" = none) :
    (set_cspnonce none r).env = r.subprocess_env ∧
    apr_table_get (set_cspnonce none r).env "CSP_NONCE" = none ∧
    (set_cspnonce none r).ret = DECLINED := by
  have hid : (if r.prev then
      apr_table_get r.subprocess_env "REDIRECT_CSP_NONCE" else none) =
        none := by
    rcases hpath with h | h <;> simp [h]
  refine ⟨?_, ?_, ?_⟩ <;>
    simp [set_cspnonce, GenSecureCSPNonce, hid, habs]

/-- Witness for C3 at a concrete fresh root context. -/
theorem entropy_failure_atomic_witness :
    (set_cspnonce none ⟨false, []⟩).env = [] ∧
    apr_table_get (set_cspnonce none ⟨false, []⟩).env "CSP_NONCE" = none ∧
    (set_cspnonce none ⟨false, []⟩).ret = DECLINED :=
  entropy_failure_atomic ⟨false, []⟩ rfl (Or.inl rfl)

/-- C4 (output format): a successful, non-inheriting resolution publishes
under `CSP_NONCE` exactly the base64 encoding of the 9-byte entropy
buffer, which is 12 characters long, drawn entirely from the base64
alphabet, with no padding characters. -/
theorem generated_nonce_format (bs : List Nat) (r : RequestRec)
    (hlen : bs.length = 9)
    (hnoinherit : r.prev = false ∨
      apr_table_get r.subprocess_env "REDIRECT_CSP_NONCE" = none) :
    apr_table_get (set_cspnonce (some bs) r).env "CSP_NONCE" =
      some (apr_base64_encode bs) ∧
    (apr_base64_encode bs).length = 12 ∧
    ∀ c ∈ apr_base64_encode bs, c ∈ basis_64 ∧ c ≠ '=' := by
  have h3 : bs.length % 3 = 0 := by omega
  have hid : (if r.prev then
      apr_table_get r.subprocess_env "REDIRECT_CSP_NONCE" else none) =
        none := by
    rcases hnoinherit with h | h <;> simp [h]
  refine ⟨?_, ?_, encode_mem_triples bs h3⟩
  · simp only [set_cspnonce, GenSecureCSPNonce, hid]
    exact apr_table_get_setn_self ..
  · rw [encode_length_triples bs h3, hlen]

/-- Witness for C4 at the all-zero entropy buffer on a fresh root. -/
theorem generated_nonce_format_witness :
    apr_table_get
      (set_cspnonce (some (List.replicate 9 0)) ⟨false, []⟩).env
        "CSP_NONCE" = some (apr_base64_encode (List.replicate 9 0)) :=
  (generated_nonce_format (List.replicate 9 0) ⟨false, []⟩ (by decide)
    (Or.inl rfl)).1

/-- C5 (encoding round-trip): the encoder is a deterministic function of
its 9-byte input, and base64-decoding its 12-character output recovers
the original 9 bytes exactly. -/
theorem base64_roundtrip_9 (bs : List Nat) (hlen : bs.length = 9)
    (hbytes : ∀ x ∈ bs, x < 256) :
    apr_base64_decode (apr_base64_encode bs) = bs ∧
    ∀ bs2, bs = bs2 → apr_base64_encode bs = apr_base64_encode bs2 := by
  refine ⟨decode_encode_triples bs (by omega) hbytes, ?_⟩
  rintro bs2 rfl
  rfl

/-- Witness for C5 at a concrete 9-byte buffer. -/
theorem base64_roundtrip_9_witness :
    apr_base64_decode
      (apr_base64_encode [0, 17, 34, 51, 68, 85, 102, 119, 136]) =
      [0, 17, 34, 51, 68, 85, 102, 119, 136] :=
  (base64_roundtrip_9 [0, 17, 34, 51, 68, 85, 102, 119, 136] (by decide)
    (by decide)).1

/-- C6 (pipeline continuation): every invocation of `set_cspnonce` —
inherited, freshly generated, or failed — returns `DECLINED`. -/
theorem always_declined (entropy : Option (List Nat)) (r : RequestRec) :
    (set_cspnonce entropy r).ret = DECLINED := by
  simp only [set_cspnonce]
  split
  · rfl
  · split <;> rfl

/-- C9 (concrete encoding case): the nine-zero-byte buffer encodes to the
12-character string `AAAAAAAAAAAA` with no padding characters. -/
theorem encode_nine_zero_bytes :
    String.mk (apr_base64_encode (List.replicate 9 0)) = "AAAAAAAAAAAA" ∧
    (apr_base64_encode (List.replicate 9 0)).length = 12 ∧
    '=' ∉ apr_base64_encode (List.replicate 9 0) := by decide

/-! ## Chain helper lemmas -/

/-- A successful `apr_table_get` exhibits a table entry. -/
theorem mem_of_apr_table_get {env : Env} {k : String} {v : List Char}
    (h : apr_table_get env k = some v) : (k, v) ∈ env := by
  unfold apr_table_get at h
  cases hf : env.find? (fun p => p.1 == k) with
  | none => rw [hf] at h; exact absurd h (by simp)
  | some p =>
      rw [hf] at h
      obtain ⟨p1, p2⟩ := p
      have hp : (p1 == k) = true := by simpa using List.find?_some hf
      have hpe : p1 = k := eq_of_beq hp
      have hv : p2 = v := by simpa using h
      subst hpe; subst hv
      exact List.mem_of_find?_eq_some hf

/-- `apr_table_setn` with a well-formed nonce preserves `GoodEnv`. -/
theorem goodEnv_setn {env : Env} {k : String} {v : List Char}
    (h : GoodEnv env) (hv : NonceFormat v) :
    GoodEnv (apr_table_setn env k v) := by
  intro p hp hkey
  unfold apr_table_setn at hp
  rcases List.mem_cons.mp hp with rfl | hp'
  · exact hv
  · exact h p (List.mem_of_mem_filter hp') hkey

/-- Appending to the `REDIRECT_` prefix never produces the bare key
`CSP_NONCE`. -/
theorem redirect_append_ne_cspnonce (s : String) :
    "REDIRECT_" ++ s ≠ "CSP_NONCE" := by
  intro h
  have hd : ("REDIRECT_" : String).data ++ s.data =
      ("CSP_NONCE" : String).data := by
    rw [← String.data_append, h]
  have hlen := congrArg List.length hd
  have l1 : ("REDIRECT_" : String).data.length = 9 := rfl
  have l2 : ("CSP_NONCE" : String).data.length = 9 := rfl
  simp only [List.length_append, l1, l2] at hlen
  have hnil : s.data = [] := List.eq_nil_of_length_eq_zero (by omega)
  rw [hnil, List.append_nil] at hd
  exact absurd hd (by decide)

/-- String concatenation cancels on the left. -/
theorem string_append_left_cancel {p a b : String} (h : p ++ a = p ++ b) :
    a = b := by
  have hd : p.data ++ a.data = p.data ++ b.data := by
    rw [← String.data_append, ← String.data_append, h]
  exact String.ext (List.append_cancel_left hd)

/-- After the host's `REDIRECT_` renaming, no entry is keyed
`CSP_NONCE`, so the child request starts with the variable unset. -/
theorem rename_cspnonce_absent (env : Env) :
    apr_table_get (rename_original_env env) "CSP_NONCE" = none := by
  have hf : (rename_original_env env).find?
      (fun p => p.1 == "CSP_NONCE") = none := by
    rw [List.find?_eq_none]
    intro p hp
    simp only [rename_original_env, List.mem_map] at hp
    obtain ⟨q, _, rfl⟩ := hp
    simp only [beq_iff_eq]
    exact redirect_append_ne_cspnonce q.1
  simp [apr_table_get, hf]

/-- The host's `REDIRECT_` renaming preserves `GoodEnv`: a renamed entry
keyed `REDIRECT_CSP_NONCE` was the parent's `CSP_NONCE` entry. -/
theorem goodEnv_rename {env : Env} (h : GoodEnv env) :
    GoodEnv (rename_original_env env) := by
  intro p hp hkey
  simp only [rename_original_env, List.mem_map] at hp
  obtain ⟨q, hq, rfl⟩ := hp
  rcases hkey with hk | hk
  · exact absurd hk (redirect_append_ne_cspnonce q.1)
  · have hq1 : q.1 = "CSP_NONCE" := by
      have hk' : "REDIRECT_" ++ q.1 = "REDIRECT_CSP_NONCE" := hk
      have : ("REDIRECT_" : String) ++ q.1 = "REDIRECT_" ++ "CSP_NONCE" := by
        rw [hk']; rfl
      exact string_append_left_cancel this
    exact h q hq (Or.inl hq1)

/-- A value read from a `GoodEnv` under one of the module's keys is a
well-formed nonce. -/
theorem nonceFormat_of_get {env : Env} {k : String} {v : List Char}
    (h : GoodEnv env) (hk : k = "CSP_NONCE" ∨ k = "REDIRECT_CSP_NONCE")
    (hget : apr_table_get env k = some v) : NonceFormat v :=
  h (k, v) (mem_of_apr_table_get hget) hk

/-- The encoding of any 9-byte buffer is a well-formed nonce. -/
theorem nonceFormat_encode9 {bs : List Nat} (h : bs.length = 9) :
    NonceFormat (apr_base64_encode bs) := by
  constructor
  · rw [encode_length_triples bs (by omega), h]
  · exact encode_mem_triples bs (by omega)

/-- Every redirect hop of a chain started in a `GoodEnv` performs exactly
one environment write of a well-formed nonce, or no write (leaving
`CSP_NONCE` absent) when its entropy fails with nothing to inherit. -/
theorem runChainAux_writes :
    ∀ (es : List (Option (List Nat))) (env : Env), GoodEnv env →
    (∀ bs : List Nat, some bs ∈ es → bs.length = 9) →
    ∀ res ∈ runChainAux env es,
      (res.writes = 1 ∧
        ∃ v, apr_table_get res.env "CSP_NONCE" = some v ∧ NonceFormat v) ∨
      (res.writes = 0 ∧ apr_table_get res.env "CSP_NONCE" = none)
  | [], _, _, _ => by simp [runChainAux]
  | e :: rest, env, hGood, hes => by
      have hGood' : GoodEnv (rename_original_env env) := goodEnv_rename hGood
      have hstep :
          ((set_cspnonce e ⟨true, rename_original_env env⟩).writes = 1 ∧
            ∃ v, apr_table_get
              (set_cspnonce e ⟨true, rename_original_env env⟩).env
                "CSP_NONCE" = some v ∧ NonceFormat v) ∨
          ((set_cspnonce e ⟨true, rename_original_env env⟩).writes = 0 ∧
            apr_table_get
              (set_cspnonce e ⟨true, rename_original_env env⟩).env
                "CSP_NONCE" = none) := by
        cases hred : apr_table_get (rename_original_env env)
            "REDIRECT_CSP_NONCE" with
        | some w =>
            have hw : NonceFormat w :=
              nonceFormat_of_get hGood' (Or.inr rfl) hred
            have hset : set_cspnonce e ⟨true, rename_original_env env⟩ =
                ⟨apr_table_setn (rename_original_env env) "CSP_NONCE" w,
                  DECLINED, 0, 1⟩ := by
              simp [set_cspnonce, hred]
            rw [hset]
            exact Or.inl ⟨rfl, w, apr_table_get_setn_self .., hw⟩
        | none =>
            cases e with
            | some bs =>
                have hbs : bs.length = 9 := hes bs (by simp)
                have hset :
                    set_cspnonce (some bs) ⟨true, rename_original_env env⟩ =
                    ⟨apr_table_setn (rename_original_env env) "CSP_NONCE"
                      (apr_base64_encode bs), DECLINED, 1, 1⟩ := by
                  simp [set_cspnonce, hred, GenSecureCSPNonce]
                rw [hset]
                exact Or.inl ⟨rfl, apr_base64_encode bs,
                  apr_table_get_setn_self .., nonceFormat_encode9 hbs⟩
            | none =>
                have hset : set_cspnonce none ⟨true, rename_original_env env⟩ =
                    ⟨rename_original_env env, DECLINED, 1, 0⟩ := by
                  simp [set_cspnonce, hred, GenSecureCSPNonce]
                rw [hset]
                exact Or.inr ⟨rfl, rename_cspnonce_absent env⟩
      have hGoodNext :
          GoodEnv (set_cspnonce e ⟨true, rename_original_env env⟩).env := by
        cases hred : apr_table_get (rename_original_env env)
            "REDIRECT_CSP_NONCE" with
        | some w =>
            have hw : NonceFormat w :=
              nonceFormat_of_get hGood' (Or.inr rfl) hred
            have hset : set_cspnonce e ⟨true, rename_original_env env⟩ =
                ⟨apr_table_setn (rename_original_env env) "CSP_NONCE" w,
                  DECLINED, 0, 1⟩ := by
              simp [set_cspnonce, hred]
            rw [hset]
            exact goodEnv_setn hGood' hw
        | none =>
            cases e with
            | some bs =>
                have hbs : bs.length = 9 := hes bs (by simp)
                have hset :
                    set_cspnonce (some bs) ⟨true, rename_original_env env⟩ =
                    ⟨apr_table_setn (rename_original_env env) "CSP_NONCE"
                      (apr_base64_encode bs), DECLINED, 1, 1⟩ := by
                  simp [set_cspnonce, hred, GenSecureCSPNonce]
                rw [hset]
                exact goodEnv_setn hGood' (nonceFormat_encode9 hbs)
            | none =>
                have hset : set_cspnonce none ⟨true, rename_original_env env⟩ =
                    ⟨rename_original_env env, DECLINED, 1, 0⟩ := by
                  simp [set_cspnonce, hred, GenSecureCSPNonce]
                rw [hset]
                exact hGood'
      intro res hres
      simp only [runChainAux, List.mem_cons] at hres
      rcases hres with rfl | hres
      · exact hstep
      · exact runChainAux_writes rest _ hGoodNext
          (fun bs h => hes bs (by simp [h])) res hres

/-! ## Claim about request chains -/

/-- C7 (write cardinality): over a whole request chain starting from a
fresh environment, each hop's request environment receives the key
`CSP_NONCE` by exactly one write — of a 12-character padding-free string
over the base64 alphabet — or is left with `CSP_NONCE` absent when
entropy fails with nothing to inherit. -/
theorem chain_write_cardinality (rootEnv : Env)
    (es : List (Option (List Nat)))
    (hroot : ∀ p ∈ rootEnv, p.1 ≠ "CSP_NONCE" ∧ p.1 ≠ "REDIRECT_CSP_NONCE")
    (hes : ∀ bs : List Nat, some bs ∈ es → bs.length = 9) :
    ∀ res ∈ runChain rootEnv es,
      (res.writes = 1 ∧
        ∃ v, apr_table_get res.env "CSP_NONCE" = some v ∧ NonceFormat v) ∨
      (res.writes = 0 ∧ apr_table_get res.env "CSP_NONCE" = none) := by
  cases es with
  | nil => simp [runChain]
  | cons e rest =>
      have hGood : GoodEnv rootEnv := by
        intro p hp hk
        rcases hk with hk | hk
        · exact absurd hk (hroot p hp).1
        · exact absurd hk (hroot p hp).2
      have habs : apr_table_get rootEnv "CSP_NONCE" = none := by
        have hf : rootEnv.find? (fun p => p.1 == "CSP_NONCE") = none := by
          rw [List.find?_eq_none]
          intro p hp
          simp only [beq_iff_eq]
          exact (hroot p hp).1
        simp [apr_table_get, hf]
      have hstep :
          ((set_cspnonce e ⟨false, rootEnv⟩).writes = 1 ∧
            ∃ v, apr_table_get (set_cspnonce e ⟨false, rootEnv⟩).env
              "CSP_NONCE" = some v ∧ NonceFormat v) ∨
          ((set_cspnonce e ⟨false, rootEnv⟩).writes = 0 ∧
            apr_table_get (set_cspnonce e ⟨false, rootEnv⟩).env
              "CSP_NONCE" = none) := by
        cases e with
        | some bs =>
            have hbs : bs.length = 9 := hes bs (by simp)
            have hset : set_cspnonce (some bs) ⟨false, rootEnv⟩ =
                ⟨apr_table_setn rootEnv "CSP_NONCE" (apr_base64_encode bs),
                  DECLINED, 1, 1⟩ := by
              simp [set_cspnonce, GenSecureCSPNonce]
            rw [hset]
            exact Or.inl ⟨rfl, apr_base64_encode bs,
              apr_table_get_setn_self .., nonceFormat_encode9 hbs⟩
        | none =>
            have hset : set_cspnonce none ⟨false, rootEnv⟩ =
                ⟨rootEnv, DECLINED, 1, 0⟩ := by
              simp [set_cspnonce, GenSecureCSPNonce]
            rw [hset]
            exact Or.inr ⟨rfl, habs⟩
      have hGoodNext : GoodEnv (set_cspnonce e ⟨false, rootEnv⟩).env := by
        cases e with
        | some bs =>
            have hbs : bs.length = 9 := hes bs (by simp)
            have hset : set_cspnonce (some bs) ⟨false, rootEnv⟩ =
                ⟨apr_table_setn rootEnv "CSP_NONCE" (apr_base64_encode bs),
                  DECLINED, 1, 1⟩ := by
              simp [set_cspnonce, GenSecureCSPNonce]
            rw [hset]
            exact goodEnv_setn hGood (nonceFormat_encode9 hbs)
        | none =>
            have hset : set_cspnonce none ⟨false, rootEnv⟩ =
                ⟨rootEnv, DECLINED, 1, 0⟩ := by
              simp [set_cspnonce, GenSecureCSPNonce]
            rw [hset]
            exact hGood
      intro res hres
      simp only [runChain, List.mem_cons] at hres
      rcases hres with rfl | hres
      · exact hstep
      · exact runChainAux_writes rest _ hGoodNext
          (fun bs h => hes bs (by simp [h])) res hres

/-- Witness for C7: the root hop of a concrete three-hop chain whose
middle hop loses entropy (it still inherits). -/
theorem chain_write_cardinality_witness :
    ((set_cspnonce (some (List.replicate 9 255))
        ⟨false, [("HTTPS", ['o', 'n'])]⟩).writes = 1 ∧
      ∃ v, apr_table_get (set_cspnonce (some (List.replicate 9 255))
          ⟨false, [("HTTPS", ['o', 'n'])]⟩).env "CSP_NONCE" = some v ∧
        NonceFormat v) ∨
    ((set_cspnonce (some (List.replicate 9 255))
        ⟨false, [("HTTPS", ['o', 'n'])]⟩).writes = 0 ∧
      apr_table_get (set_cspnonce (some (List.replicate 9 255))
        ⟨false, [("HTTPS", ['o', 'n'])]⟩).env "CSP_NONCE" = none) :=
  chain_write_cardinality [("HTTPS", ['o', 'n'])]
    [some (List.replicate 9 255), none, some (List.replicate 9 0)]
    (by decide)
    (by intro bs h
        simp only [List.mem_cons, List.not_mem_nil, or_false] at h
        rcases h with h | h | h
        · cases Option.some.inj h; rfl
        · exact absurd h (by simp)
        · cases Option.some.inj h; rfl)
    (set_cspnonce (some (List.replicate 9 255))
      ⟨false, [("HTTPS", ['o', 'n'])]⟩)
    (List.mem_cons_self _ _)

/-! ## Claims about the POSIX fallback entropy path -/

/-- C8 (fallback buffer filling): the POSIX fallback fills the 9-byte
buffer with three 4-byte pseudo-random draws copied at the overlapping
offsets 0–3, 4–7 and 5–8 — so bytes 5–7 are overwritten by the third
draw and exactly 6 of the 9 buffer positions are written by a single
draw — and the generator is seeded from the wall-clock reading
`ts.tv_nsec ^ ts.tv_sec` rather than a true entropy source. -/
theorem fallback_fill_overlap (r1 r2 r3 : Nat)
    (stream : Nat → Nat → Nat) (ts : Timespec) :
    fallback_fill r1 r2 r3 =
      [r1 % 256, r1 / 256 % 256, r1 / 65536 % 256, r1 / 16777216 % 256,
       r2 % 256,
       r3 % 256, r3 / 256 % 256, r3 / 65536 % 256, r3 / 16777216 % 256] ∧
    ((List.range 9).filter (fun i => coverCount i == 1)).length = 6 ∧
    genPosixNonce stream ts =
      apr_base64_encode
        (fallback_fill (stream (ts.tv_nsec ^^^ ts.tv_sec) 0)
          (stream (ts.tv_nsec ^^^ ts.tv_sec) 1)
          (stream (ts.tv_nsec ^^^ ts.tv_sec) 2)) :=
  ⟨rfl, by decide, rfl⟩

/-- C10 (fallback two-run determinism): the fallback path reseeds the
PRNG on every call from `ts.tv_nsec ^ ts.tv_sec`, so two calls observing
equal seed values produce identical nonce strings — the output is a
function of the single clock reading alone. -/
theorem fallback_seed_determinism (stream : Nat → Nat → Nat)
    (ts1 ts2 : Timespec)
    (hseed : ts1.tv_nsec ^^^ ts1.tv_sec = ts2.tv_nsec ^^^ ts2.tv_sec) :
    genPosixNonce stream ts1 = genPosixNonce stream ts2 := by
  unfold genPosixNonce posixSeed
  rw [hseed]

/-- Witness for C10: two distinct clock readings with the same seed. -/
theorem fallback_seed_determinism_witness :
    genPosixNonce (fun s i => s + i) ⟨1, 2⟩ =
      genPosixNonce (fun s i => s + i) ⟨2, 1⟩ :=
  fallback_seed_determinism (fun s i => s + i) ⟨1, 2⟩ ⟨2, 1⟩ (by decide)

end ModCspnonce
